import Mathlib

/-!
# Verification of the SQL-SchemaLens AST analyzer

Shallow embedding of the analyzer module (`analyzeSqlAst`, `extractTableName`,
`extractColumns`, `extractColumnName`, `buildDataType`) operating on a model of
dynamically-typed JavaScript values, together with proofs about the claims of
the specification.
-/

set_option maxHeartbeats 1000000

/-- A JavaScript value as seen by the analyzer.  `nul` stands for both
`null` and `undefined` (the analyzer only distinguishes them through
truthiness and `typeof`-against-`'string'` tests, on which they agree at
every guarded access site).  Objects are finite association lists with
distinct keys; numbers are modelled as integers (all numbers reaching the
analyzer are integral). -/
inductive JsVal where
  | nul : JsVal
  | bool : Bool → JsVal
  | num : Int → JsVal
  | str : String → JsVal
  | arr : List JsVal → JsVal
  | obj : List (String × JsVal) → JsVal

mutual

/-- Decidable structural equality on `JsVal` (written by hand because the
nested inductive defeats the deriving handler). -/
def jsDecEq : (a b : JsVal) → Decidable (a = b)
  | .nul, .nul => .isTrue rfl
  | .nul, .bool _ => .isFalse (fun h => JsVal.noConfusion h)
  | .nul, .num _ => .isFalse (fun h => JsVal.noConfusion h)
  | .nul, .str _ => .isFalse (fun h => JsVal.noConfusion h)
  | .nul, .arr _ => .isFalse (fun h => JsVal.noConfusion h)
  | .nul, .obj _ => .isFalse (fun h => JsVal.noConfusion h)
  | .bool _, .nul => .isFalse (fun h => JsVal.noConfusion h)
  | .bool a, .bool b =>
      if h : a = b then .isTrue (by rw [h])
      else .isFalse (by intro hh; injection hh; contradiction)
  | .bool _, .num _ => .isFalse (fun h => JsVal.noConfusion h)
  | .bool _, .str _ => .isFalse (fun h => JsVal.noConfusion h)
  | .bool _, .arr _ => .isFalse (fun h => JsVal.noConfusion h)
  | .bool _, .obj _ => .isFalse (fun h => JsVal.noConfusion h)
  | .num _, .nul => .isFalse (fun h => JsVal.noConfusion h)
  | .num _, .bool _ => .isFalse (fun h => JsVal.noConfusion h)
  | .num a, .num b =>
      if h : a = b then .isTrue (by rw [h])
      else .isFalse (by intro hh; injection hh; contradiction)
  | .num _, .str _ => .isFalse (fun h => JsVal.noConfusion h)
  | .num _, .arr _ => .isFalse (fun h => JsVal.noConfusion h)
  | .num _, .obj _ => .isFalse (fun h => JsVal.noConfusion h)
  | .str _, .nul => .isFalse (fun h => JsVal.noConfusion h)
  | .str _, .bool _ => .isFalse (fun h => JsVal.noConfusion h)
  | .str _, .num _ => .isFalse (fun h => JsVal.noConfusion h)
  | .str a, .str b =>
      if h : a = b then .isTrue (by rw [h])
      else .isFalse (by intro hh; injection hh; contradiction)
  | .str _, .arr _ => .isFalse (fun h => JsVal.noConfusion h)
  | .str _, .obj _ => .isFalse (fun h => JsVal.noConfusion h)
  | .arr _, .nul => .isFalse (fun h => JsVal.noConfusion h)
  | .arr _, .bool _ => .isFalse (fun h => JsVal.noConfusion h)
  | .arr _, .num _ => .isFalse (fun h => JsVal.noConfusion h)
  | .arr _, .str _ => .isFalse (fun h => JsVal.noConfusion h)
  | .arr xs, .arr ys =>
      match jsDecEqList xs ys with
      | .isTrue h => .isTrue (by rw [h])
      | .isFalse h => .isFalse (by intro hh; injection hh; contradiction)
  | .arr _, .obj _ => .isFalse (fun h => JsVal.noConfusion h)
  | .obj _, .nul => .isFalse (fun h => JsVal.noConfusion h)
  | .obj _, .bool _ => .isFalse (fun h => JsVal.noConfusion h)
  | .obj _, .num _ => .isFalse (fun h => JsVal.noConfusion h)
  | .obj _, .str _ => .isFalse (fun h => JsVal.noConfusion h)
  | .obj _, .arr _ => .isFalse (fun h => JsVal.noConfusion h)
  | .obj xs, .obj ys =>
      match jsDecEqFields xs ys with
      | .isTrue h => .isTrue (by rw [h])
      | .isFalse h => .isFalse (by intro hh; injection hh; contradiction)

/-- Decidable equality on lists of `JsVal`. -/
def jsDecEqList : (a b : List JsVal) → Decidable (a = b)
  | [], [] => .isTrue rfl
  | [], _ :: _ => .isFalse (fun h => List.noConfusion h)
  | _ :: _, [] => .isFalse (fun h => List.noConfusion h)
  | x :: xs, y :: ys =>
      match jsDecEq x y, jsDecEqList xs ys with
      | .isTrue h1, .isTrue h2 => .isTrue (by rw [h1, h2])
      | .isFalse h1, _ => .isFalse (by intro hh; injection hh; contradiction)
      | _, .isFalse h2 => .isFalse (by intro hh; injection hh; contradiction)

/-- Decidable equality on object field lists. -/
def jsDecEqFields : (a b : List (String × JsVal)) → Decidable (a = b)
  | [], [] => .isTrue rfl
  | [], _ :: _ => .isFalse (fun h => List.noConfusion h)
  | _ :: _, [] => .isFalse (fun h => List.noConfusion h)
  | (k1, v1) :: xs, (k2, v2) :: ys =>
      match String.decEq k1 k2, jsDecEq v1 v2, jsDecEqFields xs ys with
      | .isTrue hk, .isTrue hv, .isTrue ht => .isTrue (by rw [hk, hv, ht])
      | .isFalse hk, _, _ =>
          .isFalse (by intro hh; injection hh with hp ht; injection hp; contradiction)
      | _, .isFalse hv, _ =>
          .isFalse (by intro hh; injection hh with hp ht; injection hp; contradiction)
      | _, _, .isFalse ht =>
          .isFalse (by intro hh; injection hh with hp ht; contradiction)

end

instance : DecidableEq JsVal := jsDecEq

/-- JavaScript truthiness of a value. -/
def truthy : JsVal → Bool
  | .nul => false
  | .bool b => b
  | .num n => n != 0
  | .str s => s != ""
  | .arr _ => true
  | .obj _ => true

/-- JavaScript `typeof`.  (`typeof null` is `"object"`; `undefined`, also
modelled by `nul`, is only ever inspected behind a truthiness guard or
compared against `"string"`, where the two agree.) -/
def jsTypeof : JsVal → String
  | .nul => "object"
  | .bool _ => "boolean"
  | .num _ => "number"
  | .str _ => "string"
  | .arr _ => "object"
  | .obj _ => "object"

/-- Whether a value is a string (`typeof v === 'string'`). -/
def isStrVal : JsVal → Bool
  | .str _ => true
  | _ => false

/-- First-match association-list lookup for object fields. -/
def lookupField : List (String × JsVal) → String → JsVal
  | [], _ => .nul
  | (k, v) :: rest, key => if k = key then v else lookupField rest key

/-- JavaScript property access `v[key]`, returning `nul` (undefined) on a
miss.  Arrays and strings expose their `length` property as a number, which
the analyzer's fallback chains can (and do) observe. -/
def getField (v : JsVal) (key : String) : JsVal :=
  match v with
  | .obj fields => lookupField fields key
  | .arr xs => if key = "length" then .num (Int.ofNat xs.length) else .nul
  | .str s => if key = "length" then .num (Int.ofNat s.length) else .nul
  | _ => .nul

mutual

/-- JavaScript `String(v)` / template-literal interpolation. -/
def jsToString : JsVal → String
  | .nul => "null"
  | .bool b => if b then "true" else "false"
  | .num n => toString n
  | .str s => s
  | .arr xs => jsJoinComma xs
  | .obj _ => "[object Object]"

/-- JavaScript `Array.prototype.join(',')`: `null`/`undefined` elements
render as the empty string. -/
def jsJoinComma : List JsVal → String
  | [] => ""
  | [.nul] => ""
  | [x] => jsToString x
  | .nul :: rest => "," ++ jsJoinComma rest
  | x :: rest => jsToString x ++ "," ++ jsJoinComma rest

end

/-- Uppercasing of each character of a list (structural recursion, so that
it computes by kernel reduction). -/
def upperChars : List Char → List Char
  | [] => []
  | c :: cs => c.toUpper :: upperChars cs

/-- JavaScript `String.prototype.toUpperCase()` on the ASCII strings the
analyzer handles: per-character uppercasing. -/
def jsToUpper (s : String) : String :=
  ⟨upperChars s.data⟩

/-- One column of a table summary. -/
structure ColumnInfo where
  columnName : String
  dataType : String
deriving DecidableEq

/-- One table of the analysis result.  `tableName` is kept as a `JsVal`
because `extractTableName` can hand back non-string values. -/
structure TableInfo where
  tableName : JsVal
  columns : List ColumnInfo
  rowCount : Nat
deriving DecidableEq

/-- The analyzer's result object.  `databaseName = nul` models the
JavaScript `null` ("absent"). -/
structure AnalysisResult where
  databaseName : JsVal
  totalTables : Nat
  tables : List TableInfo
deriving DecidableEq

/-- The analyzer's internal `Map` from table name to table info, in
insertion order. -/
abbrev TableMap := List (JsVal × TableInfo)

/-- `Map.get`. -/
def mapGet (k : JsVal) : TableMap → Option TableInfo
  | [] => none
  | (k', v) :: rest => if k' = k then some v else mapGet k rest

/-- `Map.has`. -/
def mapHas (k : JsVal) : TableMap → Bool
  | [] => false
  | (k', _) :: rest => if k' = k then true else mapHas k rest

/-- `Map.set`: an existing key keeps its insertion position and gets the new
value; a fresh key is appended at the end.  (JavaScript `Map` key equality is
SameValueZero, which coincides with structural equality on the primitive
values used as keys here.) -/
def mapSet (k : JsVal) (v : TableInfo) : TableMap → TableMap
  | [] => [(k, v)]
  | (k', v') :: rest => if k' = k then (k, v) :: rest else (k', v') :: mapSet k v rest

/-- In-place `tableInfo.rowCount += w` on the entry stored under `k`
(no-op when `k` is absent). -/
def mapBump (k : JsVal) (w : Nat) : TableMap → TableMap
  | [] => []
  | (k', v) :: rest =>
      if k' = k then (k', { v with rowCount := v.rowCount + w }) :: rest
      else (k', v) :: mapBump k w rest

/-- Lines 95-102 of the analyzer: the final object-shaped branch of
`extractTableName`, also reached by fall-through from the array branch. -/
def extractTableNameObjBranch (tableRef : JsVal) : JsVal :=
  if truthy tableRef ∧ jsTypeof tableRef = "object" then
    if jsTypeof (getField tableRef "table") = "string" then getField tableRef "table"
    else if truthy (getField tableRef "table") ∧
        truthy (getField (getField tableRef "table") "table") then
      getField (getField tableRef "table") "table"
    else JsVal.nul
  else JsVal.nul

/-- `extractTableName` from the analyzer.  `nul` models the JavaScript
`null`/`undefined` "no name found" results. -/
def extractTableName (tableRef : JsVal) : JsVal :=
  if jsTypeof tableRef = "string" then tableRef
  else
    match tableRef with
    | .arr (firstTable :: _) =>
        if jsTypeof firstTable = "string" then firstTable
        else if truthy firstTable ∧ truthy (getField firstTable "table") then
          if jsTypeof (getField firstTable "table") = "string" then
            getField firstTable "table"
          else getField (getField firstTable "table") "table"
        else extractTableNameObjBranch tableRef
    | _ => extractTableNameObjBranch tableRef

/-- The string payload of a value known to be a string (used only behind
`isStrVal` guards, mirroring the JavaScript returns of guarded fields). -/
def asString (v : JsVal) : String :=
  match v with
  | .str s => s
  | _ => ""

/-- `extractColumnName` from the analyzer: the three sequential fallback
probes for the column-name field, defaulting to `"unknown"`. -/
def extractColumnName (defn : JsVal) : String :=
  if isStrVal (getField defn "column") then asString (getField defn "column")
  else if truthy (getField defn "column") ∧
      isStrVal (getField (getField defn "column") "column") then
    asString (getField (getField defn "column") "column")
  else if truthy (getField defn "column") ∧
      truthy (getField (getField defn "column") "column") ∧
      isStrVal (getField (getField (getField defn "column") "column") "column") then
    asString (getField (getField (getField defn "column") "column") "column")
  else "unknown"

/-- `buildDataType` from the analyzer.  Note that when
`definition.dataType` is a (non-empty) string and no outer `length` is
present, the fallback `definition.dataType.length` observes the *string's*
`length` property. -/
def buildDataType (definition : JsVal) : String :=
  if ¬ truthy definition then "unknown"
  else
    let dataType : String :=
      if isStrVal (getField definition "dataType") then
        jsToUpper (jsToString (getField definition "dataType"))
      else if truthy (getField definition "dataType") ∧
          isStrVal (getField (getField definition "dataType") "dataType") then
        jsToUpper (jsToString (getField (getField definition "dataType") "dataType"))
      else "unknown"
    let length : JsVal :=
      if getField definition "length" ≠ JsVal.nul then getField definition "length"
      else if truthy (getField definition "dataType") ∧
          getField (getField definition "dataType") "length" ≠ JsVal.nul then
        getField (getField definition "dataType") "length"
      else JsVal.nul
    let scale : JsVal :=
      if getField definition "scale" ≠ JsVal.nul then getField definition "scale"
      else if truthy (getField definition "dataType") ∧
          getField (getField definition "dataType") "scale" ≠ JsVal.nul then
        getField (getField definition "dataType") "scale"
      else JsVal.nul
    if length ≠ JsVal.nul then
      if scale ≠ JsVal.nul then
        dataType ++ "(" ++ jsToString length ++ "," ++ jsToString scale ++ ")"
      else dataType ++ "(" ++ jsToString length ++ ")"
    else dataType

/-- `extractColumns` from the analyzer: keep the `resource === 'column'`
entries of an array of definitions, anything else yields `[]`. -/
def extractColumns (definitions : JsVal) : List ColumnInfo :=
  match definitions with
  | .arr defs =>
      (defs.filter fun d => truthy d && decide (getField d "resource" = JsVal.str "column")).map
        fun d => ⟨extractColumnName d, buildDataType (getField d "definition")⟩
  | _ => []

/-- Number of rows contributed by an `insert` statement's `values` field:
the length when it is an array (arrays are always truthy, so the source's
`statement.values &&` conjunct is vacuous there), otherwise `1`. -/
def rowWeight (vals : JsVal) : Nat :=
  match vals with
  | .arr xs => xs.length
  | _ => 1

/-- The analyzer's mutable accumulator: the `result.databaseName` field and
the table map. -/
structure AnalyzerState where
  databaseName : JsVal
  tableMap : TableMap
deriving DecidableEq

/-- Processing of a single statement (the body of the `forEach` in
`analyzeSqlAst`): skip non-truthy/non-object values, then dispatch on the
`type` discriminator as the source's `switch` does. -/
def analyzeStatement (st : AnalyzerState) (statement : JsVal) : AnalyzerState :=
  if ¬ truthy statement ∨ jsTypeof statement ≠ "object" then st
  else if getField statement "type" = JsVal.str "use" then
    if truthy (getField statement "db") then
      { st with databaseName :=
          if jsTypeof (getField statement "db") = "string" then getField statement "db"
          else if truthy (getField (getField statement "db") "db") then
            getField (getField statement "db") "db"
          else getField statement "db" }
    else st
  else if getField statement "type" = JsVal.str "create" then
    if getField statement "keyword" = JsVal.str "table" ∧ truthy (getField statement "table") then
      if truthy (extractTableName (getField statement "table")) then
        let tableName := extractTableName (getField statement "table")
        let tableInfo : TableInfo :=
          { tableName := tableName
            columns := extractColumns (getField statement "create_definitions")
            rowCount := 0 }
        { st with tableMap := mapSet tableName tableInfo st.tableMap }
      else st
    else st
  else if getField statement "type" = JsVal.str "insert" then
    if truthy (getField statement "table") then
      if truthy (extractTableName (getField statement "table")) ∧
          mapHas (extractTableName (getField statement "table")) st.tableMap = true then
        let tableName := extractTableName (getField statement "table")
        let bumped := mapBump tableName (rowWeight (getField statement "values")) st.tableMap
        { st with tableMap := bumped }
      else st
    else st
  else st

/-- The input normalization `Array.isArray(ast) ? ast : [ast]`. -/
def stmtsOf (ast : JsVal) : List JsVal :=
  match ast with
  | .arr xs => xs
  | _ => [ast]

/-- `analyzeSqlAst` from the analyzer: fold the statements over the empty
accumulator and package the result. -/
def analyzeSqlAst (ast : JsVal) : AnalysisResult :=
  let final := (stmtsOf ast).foldl analyzeStatement { databaseName := .nul, tableMap := [] }
  { databaseName := final.databaseName
    totalTables := (final.tableMap.map Prod.snd).length
    tables := final.tableMap.map Prod.snd }

/-- The database-name contribution of a single statement: `some target` when
the statement is a well-formed `use` statement with a truthy `db` field
(`target` being the value the analyzer assigns), `none` otherwise. -/
def useTarget (s : JsVal) : Option JsVal :=
  if truthy s ∧ jsTypeof s = "object" ∧ getField s "type" = JsVal.str "use" ∧
      truthy (getField s "db") then
    some (if jsTypeof (getField s "db") = "string" then getField s "db"
          else if truthy (getField (getField s "db") "db") then
            getField (getField s "db") "db"
          else getField s "db")
  else none

/-- The table-creation contribution of a single statement: `some (name, cols)`
when the statement is a well-formed `create table` whose table name extracts
to a truthy value, `none` otherwise. -/
def createOf (s : JsVal) : Option (JsVal × List ColumnInfo) :=
  if truthy s ∧ jsTypeof s = "object" ∧ getField s "type" = JsVal.str "create" ∧
      getField s "keyword" = JsVal.str "table" ∧ truthy (getField s "table") ∧
      truthy (extractTableName (getField s "table")) then
    some (extractTableName (getField s "table"),
          extractColumns (getField s "create_definitions"))
  else none

/-- Whether a statement successfully creates the table named `k`. -/
def createsKey (s : JsVal) (k : JsVal) : Bool :=
  match createOf s with
  | some p => p.1 = k
  | none => false

/-- The insert target of a single statement: `some name` (with `name` the
extracted, possibly falsy, table reference) when the statement is a
well-formed `insert` with a truthy `table` field, `none` otherwise. -/
def insertKeyOf (s : JsVal) : Option JsVal :=
  if truthy s ∧ jsTypeof s = "object" ∧ getField s "type" = JsVal.str "insert" ∧
      truthy (getField s "table") then
    some (extractTableName (getField s "table"))
  else none

/-- Row-count contribution of one statement to the table named `k`. -/
def insertWeightOn (s : JsVal) (k : JsVal) : Nat :=
  match insertKeyOf s with
  | some k1 => if k1 = k then rowWeight (getField s "values") else 0
  | none => 0

/-- Total row-count contribution of a statement list to the table named `k`. -/
def insertSum (ss : List JsVal) (k : JsVal) : Nat :=
  match ss with
  | [] => 0
  | s :: rest => insertWeightOn s k + insertSum rest k

/-- The most recent successful `create table` of `k` in a statement list:
its column list together with the statements strictly after it. -/
def lastCreate (ss : List JsVal) (k : JsVal) : Option (List ColumnInfo × List JsVal) :=
  match ss with
  | [] => none
  | s :: rest =>
      match lastCreate rest k with
      | some r => some r
      | none =>
          match createOf s with
          | some p => if p.1 = k then some (p.2, rest) else none
          | none => none

/-- The target of the last `use` statement (with truthy `db`) of a statement
list, if any. -/
def lastUse (ss : List JsVal) : Option JsVal :=
  match ss with
  | [] => none
  | s :: rest =>
      match lastUse rest with
      | some v => some v
      | none => useTarget s

/-- Names of all successful `create table` statements, in statement order. -/
def createNames (ss : List JsVal) : List JsVal :=
  ss.filterMap fun s => (createOf s).map Prod.fst

/-- Append `k` unless already present (first-occurrence accumulation). -/
def addFirst (acc : List JsVal) (k : JsVal) : List JsVal :=
  if k ∈ acc then acc else acc ++ [k]

/-- The distinct values of a list, in order of first occurrence. -/
def firstOccurrences (names : List JsVal) : List JsVal :=
  names.foldl addFirst []

/-- Declarative characterization of the table-reference shapes from which
`extractTableName` produces a *string*: a bare string; a non-empty sequence
whose first element is a string, or is truthy with a truthy `table` field
that is a string or has a string `table` subfield; an object whose `table`
field is a string, or is truthy with a truthy string `table` subfield. -/
def strShape (v : JsVal) : Bool :=
  match v with
  | .str _ => true
  | .arr (f :: _) =>
      isStrVal f ||
      (truthy f && truthy (getField f "table") &&
        (isStrVal (getField f "table") || isStrVal (getField (getField f "table") "table")))
  | .obj _ =>
      isStrVal (getField v "table") ||
      (truthy (getField v "table") && truthy (getField (getField v "table") "table") &&
        isStrVal (getField (getField v "table") "table"))
  | _ => false

/-- The object shapes (c)/(d) exactly as the specification words them: an
object whose `table` field is a string, or whose `table` field is an object
with a string `table` field.  (Spec-worded definition, used to compare the
claimed shape list with the code's actual behavior.) -/
def claimShapeCD (v : JsVal) : Bool :=
  match v with
  | .obj _ =>
      isStrVal (getField v "table") ||
      (match getField v "table" with
       | .obj _ => isStrVal (getField (getField v "table") "table")
       | _ => false)
  | _ => false

/-- The full claimed shape list of the specification: (a) the value is itself
a string; (b) a non-empty sequence whose first element matches (c)/(d);
(c)/(d) as in `claimShapeCD`.  (Spec-worded definition.) -/
def claimShape (v : JsVal) : Bool :=
  isStrVal v ||
  (match v with
   | .arr (f :: _) => claimShapeCD f
   | _ => false) ||
  claimShapeCD v

/-- Modelled from the spec: the parsed-statement sequence corresponding to
`USE shop; CREATE TABLE users(id INT, name VARCHAR(50));
INSERT INTO users VALUES (1,'a'),(2,'b'); INSERT INTO users VALUES (3,'c');`.
The SQL-text-to-AST step is performed by the external parser, which is not
part of this repository; the record shapes below follow the input contract
documented by the specification: a `use` record with a `db` string; a
`create` record with `keyword "table"`, a table-reference sequence whose
element carries a `table` string, and `resource "column"` definition records
whose `column` field nests the name one level and whose `definition` carries
the base type tag (plus `length` when declared); `insert` records whose
`values` field is a sequence with one element per inserted row. -/
def c1Ast : JsVal :=
  .arr
    [ .obj [("type", .str "use"), ("db", .str "shop")],
      .obj [("type", .str "create"), ("keyword", .str "table"),
            ("table", .arr [.obj [("db", .nul), ("table", .str "users"), ("as", .nul)]]),
            ("create_definitions", .arr
              [ .obj [("column", .obj [("type", .str "column_ref"), ("table", .nul),
                        ("column", .str "id")]),
                      ("definition", .obj [("dataType", .str "INT")]),
                      ("resource", .str "column")],
                .obj [("column", .obj [("type", .str "column_ref"), ("table", .nul),
                        ("column", .str "name")]),
                      ("definition", .obj [("dataType", .str "VARCHAR"), ("length", .num 50)]),
                      ("resource", .str "column")]])],
      .obj [("type", .str "insert"),
            ("table", .arr [.obj [("db", .nul), ("table", .str "users"), ("as", .nul)]]),
            ("values", .arr [.obj [("type", .str "expr_list")], .obj [("type", .str "expr_list")]])],
      .obj [("type", .str "insert"),
            ("table", .arr [.obj [("db", .nul), ("table", .str "users"), ("as", .nul)]]),
            ("values", .arr [.obj [("type", .str "expr_list")]])]]

/-- A small input exercising create-then-insert row counting: one `create
table t` (without a definition list) followed by one two-row `insert`. -/
def c2Ast : JsVal :=
  .arr
    [ .obj [("type", .str "create"), ("keyword", .str "table"), ("table", .str "t"),
            ("create_definitions", .nul)],
      .obj [("type", .str "insert"), ("table", .str "t"),
            ("values", .arr [.nul, .nul])]]

/-- A small input exercising table re-declaration: `create table t` twice
(the second with one constraint-free column definition), then a one-row
`insert`. -/
def c4Ast : JsVal :=
  .arr
    [ .obj [("type", .str "create"), ("keyword", .str "table"), ("table", .str "t"),
            ("create_definitions", .nul)],
      .obj [("type", .str "create"), ("keyword", .str "table"), ("table", .str "t"),
            ("create_definitions", .arr [.obj [("resource", .str "column")]])],
      .obj [("type", .str "insert"), ("table", .str "t"),
            ("values", .arr [.nul])]]

theorem mapGet_mapSet_self (k : JsVal) (v : TableInfo) (m : TableMap) :
    mapGet k (mapSet k v m) = some v := by
  induction m with
  | nil => simp [mapSet, mapGet]
  | cons p rest ih =>
      obtain ⟨k', v'⟩ := p
      by_cases h : k' = k
      · simp [mapSet, mapGet, h]
      · simp [mapSet, mapGet, h, ih]

theorem mapGet_mapSet_ne (k q : JsVal) (v : TableInfo) (m : TableMap) (h : q ≠ k) :
    mapGet q (mapSet k v m) = mapGet q m := by
  have hk : k ≠ q := fun hh => h hh.symm
  induction m with
  | nil => simp [mapSet, mapGet, hk]
  | cons p rest ih =>
      obtain ⟨k', v'⟩ := p
      by_cases h' : k' = k
      · subst h'
        simp [mapSet, mapGet, hk]
      · simp [mapSet, mapGet, h', ih]

theorem mapGet_mapBump_self (k : JsVal) (w : Nat) (m : TableMap) :
    mapGet k (mapBump k w m) =
      (mapGet k m).map fun t => { t with rowCount := t.rowCount + w } := by
  induction m with
  | nil => simp [mapBump, mapGet]
  | cons p rest ih =>
      obtain ⟨k', v'⟩ := p
      by_cases h : k' = k
      · simp [mapBump, mapGet, h]
      · simp [mapBump, mapGet, h, ih]

theorem mapGet_mapBump_ne (k q : JsVal) (w : Nat) (m : TableMap) (h : q ≠ k) :
    mapGet q (mapBump k w m) = mapGet q m := by
  induction m with
  | nil => simp [mapBump, mapGet]
  | cons p rest ih =>
      obtain ⟨k', v'⟩ := p
      by_cases h' : k' = k
      · subst h'
        have : k' ≠ q := fun hh => h hh.symm
        simp [mapBump, mapGet, this]
      · simp [mapBump, mapGet, h', ih]

theorem mapHas_eq_isSome (k : JsVal) (m : TableMap) :
    mapHas k m = (mapGet k m).isSome := by
  induction m with
  | nil => simp [mapHas, mapGet]
  | cons p rest ih =>
      obtain ⟨k', v'⟩ := p
      by_cases h : k' = k
      · simp [mapHas, mapGet, h]
      · simp [mapHas, mapGet, h, ih]

theorem mapGet_eq_none_of_not_truthy (m : TableMap) (hm : ∀ p ∈ m, truthy p.1 = true)
    (k : JsVal) (hk : ¬ truthy k = true) : mapGet k m = none := by
  induction m with
  | nil => simp [mapGet]
  | cons p rest ih =>
      obtain ⟨k', v'⟩ := p
      by_cases h : k' = k
      · subst h
        exact absurd (hm (k', v') (List.mem_cons_self _ _)) hk
      · exact (if_neg h).trans (ih fun q hq => hm q (List.mem_cons_of_mem _ hq))

theorem mapSet_keys (k : JsVal) (v : TableInfo) (m : TableMap) :
    (mapSet k v m).map Prod.fst = addFirst (m.map Prod.fst) k := by
  induction m with
  | nil => simp [mapSet, addFirst]
  | cons p rest ih =>
      obtain ⟨k', v'⟩ := p
      by_cases h : k' = k
      · subst h
        simp [mapSet, addFirst]
      · have hne : ¬ k = k' := fun hh => h hh.symm
        by_cases hmem : k ∈ rest.map Prod.fst
        · simp [mapSet, addFirst, h, hne, hmem, ih]
        · simp [mapSet, addFirst, h, hne, hmem, ih]

theorem mapBump_keys (k : JsVal) (w : Nat) (m : TableMap) :
    (mapBump k w m).map Prod.fst = m.map Prod.fst := by
  induction m with
  | nil => simp [mapBump]
  | cons p rest ih =>
      obtain ⟨k', v'⟩ := p
      by_cases h : k' = k
      · simp [mapBump, h]
      · simp [mapBump, h, ih]

theorem mapGet_of_mem (m : TableMap) (hnd : (m.map Prod.fst).Nodup)
    (p : JsVal × TableInfo) (hp : p ∈ m) : mapGet p.1 m = some p.2 := by
  induction m with
  | nil => cases hp
  | cons q rest ih =>
      obtain ⟨k', v'⟩ := q
      rcases List.mem_cons.mp hp with h | h
      · subst h
        simp [mapGet]
      · have hk : k' ≠ p.1 := by
          intro hh
          have : p.1 ∈ rest.map Prod.fst := List.mem_map_of_mem Prod.fst h
          rw [hh] at hnd
          exact (List.nodup_cons.mp hnd).1 this
        simpa [mapGet, hk] using ih (List.nodup_cons.mp hnd).2 h

theorem mem_of_mapGet (m : TableMap) (k : JsVal) (v : TableInfo)
    (h : mapGet k m = some v) : (k, v) ∈ m := by
  induction m with
  | nil => simp [mapGet] at h
  | cons q rest ih =>
      obtain ⟨k', v'⟩ := q
      by_cases hk : k' = k
      · subst hk
        simp [mapGet] at h
        subst h
        exact List.mem_cons_self _ _
      · simp [mapGet, hk] at h
        exact List.mem_cons_of_mem _ (ih h)

theorem createOf_truthy (s : JsVal) (p : JsVal × List ColumnInfo)
    (h : createOf s = some p) : truthy p.1 = true := by
  unfold createOf at h
  split at h
  · rename_i hc
    cases h
    exact hc.2.2.2.2.2
  · cases h

theorem createOf_insertKeyOf (s : JsVal) (p : JsVal × List ColumnInfo)
    (h : createOf s = some p) : insertKeyOf s = none := by
  unfold createOf at h
  split at h
  · rename_i hc
    unfold insertKeyOf
    rw [if_neg]
    intro hi
    rw [hc.2.2.1] at hi
    exact absurd hi.2.2.1 (by simp)
  · cases h

theorem analyzeStatement_eq (st : AnalyzerState) (s : JsVal) :
    analyzeStatement st s =
      { databaseName :=
          match useTarget s with
          | some v => v
          | none => st.databaseName
        tableMap :=
          match createOf s with
          | some p => mapSet p.1 ⟨p.1, p.2, 0⟩ st.tableMap
          | none =>
              match insertKeyOf s with
              | some k =>
                  if truthy k ∧ mapHas k st.tableMap = true then
                    mapBump k (rowWeight (getField s "values")) st.tableMap
                  else st.tableMap
              | none => st.tableMap } := by
  unfold analyzeStatement useTarget createOf insertKeyOf
  split_ifs <;> simp_all
  all_goals
    rename_i himp hconj
    rw [if_neg fun hc => absurd (himp hc.1) (by simp [hc.2])]

theorem mem_mapSet (k : JsVal) (v : TableInfo) (m : TableMap) (q : JsVal × TableInfo)
    (hq : q ∈ mapSet k v m) : q = (k, v) ∨ q ∈ m := by
  induction m with
  | nil => simpa [mapSet] using hq
  | cons p rest ih =>
      obtain ⟨k', v'⟩ := p
      by_cases h : k' = k
      · rw [mapSet, if_pos h] at hq
        rcases List.mem_cons.mp hq with h' | h'
        · exact Or.inl h'
        · exact Or.inr (List.mem_cons_of_mem _ h')
      · rw [mapSet, if_neg h] at hq
        rcases List.mem_cons.mp hq with h' | h'
        · exact Or.inr (h' ▸ List.mem_cons_self _ _)
        · rcases ih h' with h'' | h''
          · exact Or.inl h''
          · exact Or.inr (List.mem_cons_of_mem _ h'')

theorem mem_mapBump (k : JsVal) (w : Nat) (m : TableMap) (q : JsVal × TableInfo)
    (hq : q ∈ mapBump k w m) :
    ∃ p ∈ m, q.1 = p.1 ∧ q.2.tableName = p.2.tableName := by
  induction m with
  | nil => simp [mapBump] at hq
  | cons p rest ih =>
      obtain ⟨k', v'⟩ := p
      by_cases h : k' = k
      · rw [mapBump, if_pos h] at hq
        rcases List.mem_cons.mp hq with h' | h'
        · exact ⟨(k', v'), List.mem_cons_self _ _, by rw [h']; exact ⟨rfl, rfl⟩⟩
        · exact ⟨q, List.mem_cons_of_mem _ h', rfl, rfl⟩
      · rw [mapBump, if_neg h] at hq
        rcases List.mem_cons.mp hq with h' | h'
        · exact ⟨(k', v'), List.mem_cons_self _ _, by rw [h']; exact ⟨rfl, rfl⟩⟩
        · obtain ⟨p', hp', hfst, hname⟩ := ih h'
          exact ⟨p', List.mem_cons_of_mem _ hp', hfst, hname⟩

theorem insertWeightOn_of_none (s : JsVal) (k : JsVal) (h : insertKeyOf s = none) :
    insertWeightOn s k = 0 := by
  simp [insertWeightOn, h]

theorem analyzeStatement_keys_truthy (st : AnalyzerState) (s : JsVal)
    (hst : ∀ p ∈ st.tableMap, truthy p.1 = true) :
    ∀ p ∈ (analyzeStatement st s).tableMap, truthy p.1 = true := by
  rw [analyzeStatement_eq]
  cases hc : createOf s with
  | some p =>
      intro q hq
      rcases mem_mapSet p.1 ⟨p.1, p.2, 0⟩ st.tableMap q (by simpa using hq) with h | h
      · rw [h]
        exact createOf_truthy s p hc
      · exact hst q h
  | none =>
      cases hi : insertKeyOf s with
      | some k1 =>
          intro q hq
          simp only at hq
          split_ifs at hq
          · obtain ⟨p', hp', hfst, _⟩ := mem_mapBump k1 _ st.tableMap q hq
            rw [hfst]
            exact hst p' hp'
          · exact hst q hq
      | none => exact fun q hq => hst q hq

theorem foldl_databaseName (ss : List JsVal) :
    ∀ st : AnalyzerState,
      (ss.foldl analyzeStatement st).databaseName =
        match lastUse ss with
        | some v => v
        | none => st.databaseName := by
  induction ss with
  | nil => intro st; simp [lastUse]
  | cons s rest ih =>
      intro st
      rw [List.foldl_cons, ih (analyzeStatement st s), analyzeStatement_eq]
      cases h : lastUse rest <;> cases h2 : useTarget s <;> simp [lastUse, h, h2]

theorem foldl_tableMap_lookup (ss : List JsVal) :
    ∀ st : AnalyzerState, (∀ p ∈ st.tableMap, truthy p.1 = true) → ∀ k : JsVal,
      mapGet k (ss.foldl analyzeStatement st).tableMap =
        match lastCreate ss k with
        | some r => some ⟨k, r.1, insertSum r.2 k⟩
        | none =>
            (mapGet k st.tableMap).map fun t =>
              { t with rowCount := t.rowCount + insertSum ss k } := by
  induction ss with
  | nil =>
      intro st hst k
      cases h : mapGet k st.tableMap <;> simp [lastCreate, insertSum, h]
  | cons s rest ih =>
      intro st hst k
      have hst' : ∀ p ∈ (analyzeStatement st s).tableMap, truthy p.1 = true :=
        analyzeStatement_keys_truthy st s hst
      rw [List.foldl_cons, ih (analyzeStatement st s) hst' k, analyzeStatement_eq]
      cases hLC : lastCreate rest k with
      | some r => simp [lastCreate, hLC]
      | none =>
          cases hC : createOf s with
          | some p =>
              obtain ⟨k0, cols0⟩ := p
              by_cases hk : k0 = k
              · subst hk
                simp [lastCreate, hLC, hC, mapGet_mapSet_self]
              · have hkk : k ≠ k0 := fun hh => hk hh.symm
                have hw : insertWeightOn s k = 0 :=
                  insertWeightOn_of_none s k (createOf_insertKeyOf s _ hC)
                cases hget : mapGet k st.tableMap <;>
                  simp [lastCreate, hLC, hC, hk, mapGet_mapSet_ne _ _ _ _ hkk, hget,
                        insertSum, hw]
          | none =>
              cases hI : insertKeyOf s with
              | none =>
                  have hw : insertWeightOn s k = 0 := insertWeightOn_of_none s k hI
                  cases hget : mapGet k st.tableMap <;>
                    simp [lastCreate, hLC, hC, hI, hget, insertSum, hw]
              | some k1 =>
                  by_cases hcond : truthy k1 = true ∧ mapHas k1 st.tableMap = true
                  · by_cases hk : k1 = k
                    · subst hk
                      cases hget : mapGet k1 st.tableMap with
                      | none =>
                          simp [lastCreate, hLC, hC, hI, hcond, mapGet_mapBump_self,
                                hget, insertSum]
                      | some t =>
                          obtain ⟨tn, tc, tr⟩ := t
                          simp [lastCreate, hLC, hC, hI, hcond, mapGet_mapBump_self,
                                hget, insertSum, insertWeightOn, Nat.add_assoc]
                    · have hkk : k ≠ k1 := fun hh => hk hh.symm
                      cases hget : mapGet k st.tableMap <;>
                        simp [lastCreate, hLC, hC, hI, hcond, hk,
                              mapGet_mapBump_ne _ _ _ _ hkk, hget, insertSum,
                              insertWeightOn]
                  · by_cases hk : k1 = k
                    · subst hk
                      have hnone : mapGet k1 st.tableMap = none := by
                        rcases not_and_or.mp hcond with h | h
                        · exact mapGet_eq_none_of_not_truthy _ hst _ h
                        · cases hg : mapGet k1 st.tableMap with
                          | none => rfl
                          | some t =>
                              rw [mapHas_eq_isSome, hg] at h
                              simp at h
                      simp [lastCreate, hLC, hC, hI, hcond, hnone, insertSum]
                    · have hw : insertWeightOn s k = 0 := by
                        simp [insertWeightOn, hI, hk]
                      cases hget : mapGet k st.tableMap <;>
                        simp [lastCreate, hLC, hC, hI, hcond, hget, insertSum, hw]

theorem addFirst_nodup (acc : List JsVal) (k : JsVal) (h : acc.Nodup) :
    (addFirst acc k).Nodup := by
  unfold addFirst
  split_ifs with hm
  · exact h
  · simp [List.nodup_append, h, hm]

theorem analyzeStatement_inv (st : AnalyzerState) (s : JsVal)
    (h1 : ∀ p ∈ st.tableMap, truthy p.1 = true ∧ p.2.tableName = p.1)
    (h2 : (st.tableMap.map Prod.fst).Nodup) :
    (∀ p ∈ (analyzeStatement st s).tableMap, truthy p.1 = true ∧ p.2.tableName = p.1) ∧
      ((analyzeStatement st s).tableMap.map Prod.fst).Nodup := by
  rw [analyzeStatement_eq]
  cases hc : createOf s with
  | some p =>
      refine ⟨?_, ?_⟩
      · intro q hq
        rcases mem_mapSet p.1 ⟨p.1, p.2, 0⟩ st.tableMap q (by simpa using hq) with h | h
        · rw [h]
          exact ⟨createOf_truthy s p hc, rfl⟩
        · exact h1 q h
      · simpa [mapSet_keys] using addFirst_nodup _ p.1 h2
  | none =>
      cases hi : insertKeyOf s with
      | some k1 =>
          refine ⟨?_, ?_⟩
          · intro q hq
            simp only at hq
            split_ifs at hq
            · obtain ⟨p', hp', hfst, hname⟩ := mem_mapBump k1 _ st.tableMap q hq
              obtain ⟨ht, hn⟩ := h1 p' hp'
              refine ⟨by rw [hfst]; exact ht, by rw [hname, hn, hfst]⟩
            · exact h1 q hq
          · simp only
            split_ifs
            · simpa [mapBump_keys] using h2
            · exact h2
      | none => exact ⟨h1, h2⟩

theorem foldl_tableMap_inv (ss : List JsVal) :
    ∀ st : AnalyzerState,
      (∀ p ∈ st.tableMap, truthy p.1 = true ∧ p.2.tableName = p.1) →
      (st.tableMap.map Prod.fst).Nodup →
      (∀ p ∈ (ss.foldl analyzeStatement st).tableMap,
          truthy p.1 = true ∧ p.2.tableName = p.1) ∧
        ((ss.foldl analyzeStatement st).tableMap.map Prod.fst).Nodup := by
  induction ss with
  | nil => exact fun st h1 h2 => ⟨h1, h2⟩
  | cons s rest ih =>
      intro st h1 h2
      rw [List.foldl_cons]
      obtain ⟨h1', h2'⟩ := analyzeStatement_inv st s h1 h2
      exact ih (analyzeStatement st s) h1' h2'

theorem foldl_tableMap_keys (ss : List JsVal) :
    ∀ st : AnalyzerState,
      ((ss.foldl analyzeStatement st).tableMap).map Prod.fst =
        (createNames ss).foldl addFirst (st.tableMap.map Prod.fst) := by
  induction ss with
  | nil => intro st; simp [createNames]
  | cons s rest ih =>
      intro st
      rw [List.foldl_cons, ih (analyzeStatement st s), analyzeStatement_eq]
      cases hc : createOf s with
      | some p => simp [createNames, List.filterMap_cons, hc, mapSet_keys]
      | none =>
          cases hi : insertKeyOf s with
          | some k1 =>
              simp only
              split_ifs
              · simp [createNames, List.filterMap_cons, hc, mapBump_keys]
              · simp [createNames, List.filterMap_cons, hc]
          | none => simp [createNames, List.filterMap_cons, hc]

theorem lastCreate_eq_none (ss : List JsVal) (k : JsVal)
    (h : ∀ s ∈ ss, createsKey s k = false) : lastCreate ss k = none := by
  induction ss with
  | nil => rfl
  | cons s rest ih =>
      have hrest : lastCreate rest k = none :=
        ih fun s' hs' => h s' (List.mem_cons_of_mem _ hs')
      have hs : createsKey s k = false := h s (List.mem_cons_self _ _)
      unfold lastCreate
      rw [hrest]
      cases hc : createOf s with
      | none => rfl
      | some p =>
          have hne : ¬ p.1 = k := by
            unfold createsKey at hs
            rw [hc] at hs
            simpa using hs
          simp [hne]

theorem lastCreate_of_index (ss : List JsVal) (k : JsVal) :
    ∀ (j : Nat) (hj : j < ss.length) (cols : List ColumnInfo),
      createOf (ss.get ⟨j, hj⟩) = some (k, cols) →
      (∀ (l : Nat) (hl : l < ss.length), j < l → createsKey (ss.get ⟨l, hl⟩) k = false) →
      lastCreate ss k = some (cols, ss.drop (j + 1)) := by
  induction ss with
  | nil => intro j hj; exact absurd hj (Nat.not_lt_zero j)
  | cons s rest ih =>
      intro j hj cols hcj hafter
      cases j with
      | zero =>
          have hrest : lastCreate rest k = none := by
            apply lastCreate_eq_none
            intro s' hs'
            obtain ⟨l, hget⟩ := List.mem_iff_get.mp hs'
            have hl1 : (l : Nat) + 1 < (s :: rest).length := by
              simp only [List.length_cons]
              exact Nat.succ_lt_succ l.isLt
            have h2 : createsKey (rest.get l) k = false :=
              hafter ((l : Nat) + 1) hl1 (Nat.succ_pos _)
            rw [hget] at h2
            exact h2
          unfold lastCreate
          rw [hrest]
          have hs : createOf s = some (k, cols) := by simpa using hcj
          simp [hs]
      | succ j' =>
          have hj' : j' < rest.length := Nat.lt_of_succ_lt_succ hj
          have hcj' : createOf (rest.get ⟨j', hj'⟩) = some (k, cols) := by
            simpa using hcj
          have hafter' : ∀ (l : Nat) (hl : l < rest.length), j' < l →
              createsKey (rest.get ⟨l, hl⟩) k = false := by
            intro l hl hlt
            have hl1 : l + 1 < (s :: rest).length := by simpa using Nat.succ_lt_succ hl
            have := hafter (l + 1) hl1 (Nat.succ_lt_succ hlt)
            simpa using this
          have hres := ih j' hj' cols hcj' hafter'
          unfold lastCreate
          rw [hres]
          simp

theorem analyzeSqlAst_lookup (ast : JsVal) (k : JsVal) :
    mapGet k ((stmtsOf ast).foldl analyzeStatement ⟨.nul, []⟩).tableMap =
      match lastCreate (stmtsOf ast) k with
      | some r => some ⟨k, r.1, insertSum r.2 k⟩
      | none => none := by
  have h := foldl_tableMap_lookup (stmtsOf ast) ⟨.nul, []⟩ (by simp) k
  cases hLC : lastCreate (stmtsOf ast) k with
  | some r =>
      rw [hLC] at h
      simpa using h
  | none =>
      rw [hLC] at h
      simpa [mapGet] using h

theorem analyzeSqlAst_mem_tables (ast : JsVal) (t : TableInfo)
    (ht : t ∈ (analyzeSqlAst ast).tables) :
    mapGet t.tableName ((stmtsOf ast).foldl analyzeStatement ⟨.nul, []⟩).tableMap = some t := by
  obtain ⟨inv, nodup⟩ :=
    foldl_tableMap_inv (stmtsOf ast) ⟨.nul, []⟩ (by simp) (by simp)
  have ht' : t ∈ ((stmtsOf ast).foldl analyzeStatement ⟨.nul, []⟩).tableMap.map Prod.snd := by
    simpa [analyzeSqlAst] using ht
  obtain ⟨p, hp, hpt⟩ := List.mem_map.mp ht'
  rw [← hpt, (inv p hp).2]
  exact mapGet_of_mem _ nodup p hp

theorem bool_eq_false (b : Bool) (h : ¬ b = true) : b = false := by
  cases b
  · rfl
  · exact absurd rfl h

theorem jsTypeof_eq_string_iff (v : JsVal) : jsTypeof v = "string" ↔ isStrVal v = true := by
  cases v <;> simp [jsTypeof, isStrVal]

theorem analyzeStatement_skip (st : AnalyzerState) (s : JsVal)
    (h : ¬ truthy s = true ∨ jsTypeof s ≠ "object") : analyzeStatement st s = st := by
  unfold analyzeStatement
  rw [if_pos h]

theorem objBranch_isStr_arr (xs : List JsVal) :
    isStrVal (extractTableNameObjBranch (.arr xs)) = false := by
  have h1 : getField (JsVal.arr xs) "table" = JsVal.nul := rfl
  unfold extractTableNameObjBranch
  rw [h1, if_pos ⟨rfl, rfl⟩, if_neg (by decide), if_neg (by decide)]
  rfl

theorem objBranch_isStr_obj (fs : List (String × JsVal)) :
    isStrVal (extractTableNameObjBranch (.obj fs)) =
      (isStrVal (getField (JsVal.obj fs) "table") ||
        (truthy (getField (JsVal.obj fs) "table") &&
          truthy (getField (getField (JsVal.obj fs) "table") "table") &&
          isStrVal (getField (getField (JsVal.obj fs) "table") "table"))) := by
  unfold extractTableNameObjBranch
  rw [if_pos ⟨rfl, rfl⟩]
  by_cases hs : jsTypeof (getField (JsVal.obj fs) "table") = "string"
  · rw [if_pos hs]
    simp [(jsTypeof_eq_string_iff _).mp hs]
  · rw [if_neg hs]
    have hA : isStrVal (getField (JsVal.obj fs) "table") = false :=
      bool_eq_false _ fun hh => hs ((jsTypeof_eq_string_iff _).mpr hh)
    by_cases hc : truthy (getField (JsVal.obj fs) "table") = true ∧
        truthy (getField (getField (JsVal.obj fs) "table") "table") = true
    · rw [if_pos hc]
      simp [hA, hc.1, hc.2]
    · rw [if_neg hc]
      rcases not_and_or.mp hc with h | h
      · simp [show isStrVal JsVal.nul = false from rfl, hA, bool_eq_false _ h]
      · simp [show isStrVal JsVal.nul = false from rfl, hA, bool_eq_false _ h]

theorem extractColumns_eq_nil (defs : JsVal) (h : ∀ xs, defs ≠ JsVal.arr xs) :
    extractColumns defs = [] := by
  cases defs with
  | arr xs => exact absurd rfl (h xs)
  | nul => rfl
  | bool b => rfl
  | num n => rfl
  | str s => rfl
  | obj fs => rfl

theorem extractColumns_drop_nonColumn (l1 l2 : List JsVal) (d : JsVal)
    (h : ¬ (truthy d = true ∧ getField d "resource" = JsVal.str "column")) :
    extractColumns (.arr (l1 ++ d :: l2)) = extractColumns (.arr (l1 ++ l2)) := by
  have hp : (truthy d && decide (getField d "resource" = JsVal.str "column")) = false := by
    rcases not_and_or.mp h with h' | h'
    · simp [bool_eq_false _ h']
    · simp [h']
  simp only [extractColumns]
  rw [List.filter_append, List.filter_append, List.filter_cons, hp]
  simp

theorem extractColumnName_unknown (d : JsVal)
    (h1 : isStrVal (getField d "column") = false)
    (h2 : isStrVal (getField (getField d "column") "column") = false)
    (h3 : isStrVal (getField (getField (getField d "column") "column") "column") = false) :
    extractColumnName d = "unknown" := by
  unfold extractColumnName
  rw [if_neg (by simp [h1]), if_neg (by simp [h2]), if_neg (by simp [h3])]

theorem exists_self_append (a : String) : ∃ rest, a = a ++ rest :=
  ⟨"", by simp⟩

theorem append_tail3 (a b c : String) : ∃ rest, a ++ b ++ c = a ++ rest :=
  ⟨b ++ c, by simp [String.append_assoc]⟩

theorem append_tail5 (a b c d e : String) : ∃ rest, a ++ b ++ c ++ d ++ e = a ++ rest :=
  ⟨b ++ c ++ d ++ e, by simp [String.append_assoc]⟩

theorem append_tail4 (a b c d : String) : ∃ rest, a ++ b ++ c ++ d = a ++ rest :=
  ⟨b ++ c ++ d, by simp [String.append_assoc]⟩

theorem append_tail6 (a b c d e f : String) :
    ∃ rest, a ++ b ++ c ++ d ++ e ++ f = a ++ rest :=
  ⟨b ++ c ++ d ++ e ++ f, by simp [String.append_assoc]⟩

theorem buildDataType_unknown_base (definition : JsVal)
    (h1 : isStrVal (getField definition "dataType") = false)
    (h2 : isStrVal (getField (getField definition "dataType") "dataType") = false) :
    (∃ rest, buildDataType definition = "unknown" ++ rest) ∧
      (getField definition "length" = JsVal.nul →
        getField (getField definition "dataType") "length" = JsVal.nul →
        buildDataType definition = "unknown") := by
  by_cases ht : truthy definition = true
  · have hcond : ¬ ¬ truthy definition = true := not_not_intro ht
    constructor
    · simp only [buildDataType]
      rw [if_neg hcond,
          if_neg (show ¬ isStrVal (getField definition "dataType") = true by simp [h1]),
          if_neg (show ¬ (truthy (getField definition "dataType") = true ∧
            isStrVal (getField (getField definition "dataType") "dataType") = true) by
              simp [h2])]
      split_ifs
      all_goals
        first
          | exact append_tail6 _ _ _ _ _ _
          | exact append_tail5 _ _ _ _ _
          | exact append_tail4 _ _ _ _
          | exact append_tail3 _ _ _
          | exact exists_self_append _
    · intro hl hln
      simp only [buildDataType]
      rw [if_neg hcond,
          if_neg (show ¬ isStrVal (getField definition "dataType") = true by simp [h1]),
          if_neg (show ¬ (truthy (getField definition "dataType") = true ∧
            isStrVal (getField (getField definition "dataType") "dataType") = true) by
              simp [h2])]
      simp [hl, hln]
  · constructor
    · refine ⟨"", ?_⟩
      unfold buildDataType
      rw [if_pos (by simpa using ht)]
      simp
    · intro _ _
      unfold buildDataType
      rw [if_pos (by simpa using ht)]

/-- Claim C6 (amended): the table-name extractor returns a *string* exactly
for the shapes captured by `strShape`: a bare string; a non-empty sequence
whose first element is itself a string, or is truthy with a truthy `table`
field that is a string or has a string `table` subfield; an object whose
`table` field is a string, or is truthy with a truthy string `table`
subfield.  (For a truthy `table` field that is not a string, the extractor
returns the `table` subfield whatever it is, so non-string truthy results
can escape and be used as table names — see the counterexample.) -/
theorem extractTableName_string_shapes (v : JsVal) :
    isStrVal (extractTableName v) = strShape v := by
  cases v with
  | nul => decide
  | bool b =>
      unfold extractTableName
      rw [if_neg (by simp [jsTypeof])]
      show isStrVal (extractTableNameObjBranch (.bool b)) = strShape (.bool b)
      unfold extractTableNameObjBranch
      rw [if_neg (by simp [jsTypeof])]
      rfl
  | num n =>
      unfold extractTableName
      rw [if_neg (by simp [jsTypeof])]
      show isStrVal (extractTableNameObjBranch (.num n)) = strShape (.num n)
      unfold extractTableNameObjBranch
      rw [if_neg (by simp [jsTypeof])]
      rfl
  | str s =>
      unfold extractTableName
      rw [if_pos (show jsTypeof (JsVal.str s) = "string" from rfl)]
      rfl
  | obj fs =>
      unfold extractTableName
      rw [if_neg (by simp [jsTypeof])]
      show isStrVal (extractTableNameObjBranch (.obj fs)) = strShape (.obj fs)
      rw [objBranch_isStr_obj]
      rfl
  | arr xs =>
      cases xs with
      | nil =>
          unfold extractTableName
          rw [if_neg (by simp [jsTypeof])]
          show isStrVal (extractTableNameObjBranch (.arr [])) = strShape (.arr [])
          rw [objBranch_isStr_arr]
          rfl
      | cons f rest =>
          unfold extractTableName
          rw [if_neg (by simp [jsTypeof])]
          show isStrVal (
              if jsTypeof f = "string" then f
              else if truthy f ∧ truthy (getField f "table") then
                if jsTypeof (getField f "table") = "string" then getField f "table"
                else getField (getField f "table") "table"
              else extractTableNameObjBranch (.arr (f :: rest))) =
            strShape (.arr (f :: rest))
          have hshape : strShape (.arr (f :: rest)) =
              (isStrVal f || (truthy f && truthy (getField f "table") &&
                (isStrVal (getField f "table") ||
                  isStrVal (getField (getField f "table") "table")))) := rfl
          rw [hshape]
          by_cases hf : jsTypeof f = "string"
          · rw [if_pos hf]
            simp [(jsTypeof_eq_string_iff f).mp hf]
          · rw [if_neg hf]
            have hf' : isStrVal f = false :=
              bool_eq_false _ fun hh => hf ((jsTypeof_eq_string_iff f).mpr hh)
            by_cases hc : truthy f = true ∧ truthy (getField f "table") = true
            · rw [if_pos hc]
              by_cases hs2 : jsTypeof (getField f "table") = "string"
              · rw [if_pos hs2]
                simp [hf', hc.1, hc.2, (jsTypeof_eq_string_iff _).mp hs2]
              · rw [if_neg hs2]
                have h2 : isStrVal (getField f "table") = false :=
                  bool_eq_false _ fun hh => hs2 ((jsTypeof_eq_string_iff _).mpr hh)
                simp [hf', hc.1, hc.2, h2]
            · rw [if_neg hc]
              rw [objBranch_isStr_arr]
              rcases not_and_or.mp hc with h | h
              · simp [hf', bool_eq_false _ h]
              · simp [hf', bool_eq_false _ h]

/-- Claim C6 counterexample: the value `{table: {table: 42}}` matches none of
the claimed shapes (a)-(d), yet the extractor returns the non-string truthy
value `42`, which a create statement then uses as a table name; and the
value `["users"]` (a sequence whose first element is a bare string, matching
neither (c) nor (d)) nonetheless extracts to the string `"users"`. -/
theorem extractTableName_shape_counterexample :
    claimShape (JsVal.obj [("table", JsVal.obj [("table", JsVal.num 42)])]) = false ∧
    extractTableName (JsVal.obj [("table", JsVal.obj [("table", JsVal.num 42)])]) =
      JsVal.num 42 ∧
    truthy (JsVal.num 42) = true ∧
    claimShape (JsVal.arr [JsVal.str "users"]) = false ∧
    extractTableName (JsVal.arr [JsVal.str "users"]) = JsVal.str "users" ∧
    (analyzeSqlAst (JsVal.arr [JsVal.obj [("type", JsVal.str "create"),
        ("keyword", JsVal.str "table"),
        ("table", JsVal.obj [("table", JsVal.obj [("table", JsVal.num 42)])])]])).tables =
      [{ tableName := JsVal.num 42, columns := [], rowCount := 0 }] := by
  decide

/-- Claim C3: a top-level input that is neither a sequence nor an object
(e.g. null, a bare string, a number or a boolean) yields the empty result:
absent database name, zero tables, empty table list.  (The embedding is a
total function, so no exception can be raised on any input.) -/
theorem analyzeSqlAst_malformed (v : JsVal)
    (h : (∀ xs, v ≠ JsVal.arr xs) ∧ ∀ fs, v ≠ JsVal.obj fs) :
    analyzeSqlAst v = { databaseName := JsVal.nul, totalTables := 0, tables := [] } := by
  obtain ⟨ha, ho⟩ := h
  have hskip : analyzeStatement { databaseName := JsVal.nul, tableMap := [] } v =
      { databaseName := JsVal.nul, tableMap := [] } := by
    apply analyzeStatement_skip
    cases v with
    | nul => exact Or.inl (by decide)
    | bool b => exact Or.inr (by simp [jsTypeof])
    | num n => exact Or.inr (by simp [jsTypeof])
    | str s => exact Or.inr (by simp [jsTypeof])
    | arr xs => exact absurd rfl (ha xs)
    | obj fs => exact absurd rfl (ho fs)
  have hstmts : stmtsOf v = [v] := by
    cases v with
    | arr xs => exact absurd rfl (ha xs)
    | nul => rfl
    | bool b => rfl
    | num n => rfl
    | str s => rfl
    | obj fs => rfl
  simp [analyzeSqlAst, hstmts, hskip]

/-- Witness for C3: analyzing the bare string `"garbage"` yields the empty
result. -/
theorem analyzeSqlAst_malformed_witness :
    analyzeSqlAst (JsVal.str "garbage") =
      { databaseName := JsVal.nul, totalTables := 0, tables := [] } :=
  analyzeSqlAst_malformed (JsVal.str "garbage")
    ⟨fun _ h => JsVal.noConfusion h, fun _ h => JsVal.noConfusion h⟩

/-- Claim C7 (amended): the result's databaseName is the target extracted
from the *last* use statement whose `db` field is truthy (the `db` value
itself when it is a string, else its `db` subfield when truthy, else the
`db` value unchanged), and is absent (null) when no such use statement
occurs.  A use statement with a falsy target — such as the empty string —
does not overwrite the previous value. -/
theorem databaseName_lastUse (ast : JsVal) :
    (analyzeSqlAst ast).databaseName =
      match lastUse (stmtsOf ast) with
      | some v => v
      | none => JsVal.nul := by
  have h := foldl_databaseName (stmtsOf ast) { databaseName := JsVal.nul, tableMap := [] }
  cases hLU : lastUse (stmtsOf ast) <;> rw [hLU] at h <;> simpa [analyzeSqlAst] using h

/-- Claim C7 counterexample: for the input consisting of the single use
statement `use` with target `""` (a bare-string target), the claimed result
would be databaseName `""`; the code leaves databaseName absent because the
empty-string target is falsy. -/
theorem databaseName_lastUse_counterexample :
    (analyzeSqlAst (JsVal.arr [JsVal.obj [("type", JsVal.str "use"),
        ("db", JsVal.str "")]])).databaseName = JsVal.nul ∧
      JsVal.nul ≠ JsVal.str "" := by
  decide

/-- Claim C2: for every input and every table in the result, the table's
rowCount equals the sum — over the insert statements targeting its name that
appear after its most recent successful create statement — of the length of
the insert's `values` field when it is an array and 1 otherwise
(`insertSum`/`rowWeight`); and a name with no successful create statement
never names a table of the result, so inserts preceding every matching
create contribute nothing and create no entry. -/
theorem rowCount_after_lastCreate (ast : JsVal) (t : TableInfo)
    (ht : t ∈ (analyzeSqlAst ast).tables) :
    (∃ r : List ColumnInfo × List JsVal,
        lastCreate (stmtsOf ast) t.tableName = some r ∧
        t.rowCount = insertSum r.2 t.tableName) ∧
    ∀ k : JsVal, lastCreate (stmtsOf ast) k = none → t.tableName ≠ k := by
  have hget := analyzeSqlAst_mem_tables ast t ht
  constructor
  · have hlook := analyzeSqlAst_lookup ast t.tableName
    rw [hget] at hlook
    cases hLC : lastCreate (stmtsOf ast) t.tableName with
    | none =>
        rw [hLC] at hlook
        cases hlook
    | some r =>
        rw [hLC] at hlook
        refine ⟨r, rfl, ?_⟩
        have h2 := Option.some.inj hlook
        rw [h2]
  · intro k hk hkt
    have hlook := analyzeSqlAst_lookup ast k
    rw [hk] at hlook
    rw [← hkt] at hlook
    rw [hget] at hlook
    cases hlook

/-- Witness for C2: on `c2Ast` (create then a two-row insert) the table
`"t"` has rowCount 2, matching the row weights after its create. -/
theorem rowCount_after_lastCreate_witness :
    (∃ r : List ColumnInfo × List JsVal,
        lastCreate (stmtsOf c2Ast) (JsVal.str "t") = some r ∧
        2 = insertSum r.2 (JsVal.str "t")) ∧
      ∀ k : JsVal, lastCreate (stmtsOf c2Ast) k = none → JsVal.str "t" ≠ k :=
  rowCount_after_lastCreate c2Ast ⟨JsVal.str "t", [], 2⟩ (by decide)

/-- Claim C4: when a table name is created twice, the result's unique entry
for that name carries the later create's column list and counts only the
inserts after the later create (the earlier declaration's rows are
discarded). -/
theorem redeclaration_resets (ast : JsVal) (k : JsVal) (i j : Nat)
    (cols1 cols2 : List ColumnInfo)
    (hi : i < (stmtsOf ast).length) (hj : j < (stmtsOf ast).length) (_hij : i < j)
    (_hci : createOf ((stmtsOf ast).get ⟨i, hi⟩) = some (k, cols1))
    (hcj : createOf ((stmtsOf ast).get ⟨j, hj⟩) = some (k, cols2))
    (hafter : ∀ (l : Nat) (hl : l < (stmtsOf ast).length), j < l →
        createsKey ((stmtsOf ast).get ⟨l, hl⟩) k = false) :
    ∃ t ∈ (analyzeSqlAst ast).tables, t.tableName = k ∧ t.columns = cols2 ∧
      t.rowCount = insertSum ((stmtsOf ast).drop (j + 1)) k ∧
      ∀ t2 ∈ (analyzeSqlAst ast).tables, t2.tableName = k → t2 = t := by
  have hLC := lastCreate_of_index (stmtsOf ast) k j hj cols2 hcj hafter
  have hlook := analyzeSqlAst_lookup ast k
  rw [hLC] at hlook
  refine ⟨⟨k, cols2, insertSum ((stmtsOf ast).drop (j + 1)) k⟩, ?_, rfl, rfl, rfl, ?_⟩
  · have hmem := mem_of_mapGet _ _ _ hlook
    have hmem2 := List.mem_map_of_mem Prod.snd hmem
    simpa [analyzeSqlAst] using hmem2
  · intro t2 ht2 hname
    have hget2 := analyzeSqlAst_mem_tables ast t2 ht2
    rw [hname] at hget2
    rw [hget2] at hlook
    exact Option.some.inj hlook

/-- Witness for C4: on `c4Ast` (create `t`, re-create `t` with one column
definition, insert one row) the unique entry for `"t"` has the second
create's column list and rowCount 1. -/
theorem redeclaration_resets_witness :
    ∃ t ∈ (analyzeSqlAst c4Ast).tables, t.tableName = JsVal.str "t" ∧
      t.columns = [⟨"unknown", "unknown"⟩] ∧
      t.rowCount = insertSum ((stmtsOf c4Ast).drop 2) (JsVal.str "t") ∧
      ∀ t2 ∈ (analyzeSqlAst c4Ast).tables, t2.tableName = JsVal.str "t" → t2 = t :=
  redeclaration_resets c4Ast (JsVal.str "t") 0 1 [] [⟨"unknown", "unknown"⟩]
    (by decide) (by decide) (by decide) (by decide) (by decide) (by decide)

/-- Claim C9: the result's table list has pairwise-distinct table names,
lists them in first-successful-create order (a re-declaration keeps its
original position: `firstOccurrences` of the successful create names), and
totalTables equals its length. -/
theorem tables_unique_ordered (ast : JsVal) :
    (analyzeSqlAst ast).totalTables = (analyzeSqlAst ast).tables.length ∧
    ((analyzeSqlAst ast).tables.map fun t => t.tableName).Nodup ∧
    ((analyzeSqlAst ast).tables.map fun t => t.tableName) =
      firstOccurrences (createNames (stmtsOf ast)) := by
  obtain ⟨inv, nodup⟩ :=
    foldl_tableMap_inv (stmtsOf ast) ⟨.nul, []⟩ (by simp) (by simp)
  have hname : ((((stmtsOf ast).foldl analyzeStatement ⟨.nul, []⟩).tableMap.map
        Prod.snd).map fun t => t.tableName) =
      ((stmtsOf ast).foldl analyzeStatement ⟨.nul, []⟩).tableMap.map Prod.fst := by
    rw [List.map_map]
    exact List.map_congr_left fun p hp => (inv p hp).2
  have hkeys := foldl_tableMap_keys (stmtsOf ast) ⟨.nul, []⟩
  refine ⟨rfl, ?_, ?_⟩
  · show ((((stmtsOf ast).foldl analyzeStatement ⟨.nul, []⟩).tableMap.map
        Prod.snd).map fun t => t.tableName).Nodup
    rw [hname]
    exact nodup
  · show ((((stmtsOf ast).foldl analyzeStatement ⟨.nul, []⟩).tableMap.map
        Prod.snd).map fun t => t.tableName) = firstOccurrences (createNames (stmtsOf ast))
    rw [hname, hkeys]
    rfl

/-- Claim C10: a well-formed `create table` whose name extracts to a truthy
value but whose `create_definitions` is not an array still creates a table
entry, with empty columns and rowCount 0; and a non-column definition entry
(not truthy, or `resource` not `"column"`) is dropped from the column list
without affecting the entries around it. -/
theorem create_without_definitions (stmt n : JsVal)
    (h1 : truthy stmt = true) (h2 : jsTypeof stmt = "object")
    (h3 : getField stmt "type" = JsVal.str "create")
    (h4 : getField stmt "keyword" = JsVal.str "table")
    (h5 : truthy (getField stmt "table") = true)
    (h6 : extractTableName (getField stmt "table") = n)
    (h7 : truthy n = true)
    (h8 : ∀ xs, getField stmt "create_definitions" ≠ JsVal.arr xs) :
    ((analyzeSqlAst (JsVal.arr [stmt])).tables =
        [{ tableName := n, columns := [], rowCount := 0 }] ∧
      (analyzeSqlAst (JsVal.arr [stmt])).totalTables = 1) ∧
    ∀ (l1 l2 : List JsVal) (d : JsVal),
      ¬ (truthy d = true ∧ getField d "resource" = JsVal.str "column") →
      extractColumns (.arr (l1 ++ d :: l2)) = extractColumns (.arr (l1 ++ l2)) := by
  refine ⟨?_, fun l1 l2 d hd => extractColumns_drop_nonColumn l1 l2 d hd⟩
  have hco : createOf stmt = some (n, []) := by
    unfold createOf
    rw [if_pos ⟨h1, h2, h3, h4, h5, by rw [h6]; exact h7⟩]
    rw [h6, extractColumns_eq_nil _ h8]
  constructor
  · show ((([stmt] : List JsVal).foldl analyzeStatement ⟨.nul, []⟩).tableMap.map
        Prod.snd) = [{ tableName := n, columns := [], rowCount := 0 }]
    rw [List.foldl_cons, List.foldl_nil, analyzeStatement_eq, hco]
    rfl
  · show ((([stmt] : List JsVal).foldl analyzeStatement ⟨.nul, []⟩).tableMap.map
        Prod.snd).length = 1
    rw [List.foldl_cons, List.foldl_nil, analyzeStatement_eq, hco]
    rfl

/-- Witness for C10: a create statement for `"w"` with `create_definitions`
null still yields the single empty table entry, and a non-column entry (the
number 7) is dropped from a definition list. -/
theorem create_without_definitions_witness :
    ((analyzeSqlAst (JsVal.arr [JsVal.obj [("type", JsVal.str "create"),
          ("keyword", JsVal.str "table"), ("table", JsVal.str "w"),
          ("create_definitions", JsVal.nul)]])).tables =
        [{ tableName := JsVal.str "w", columns := [], rowCount := 0 }] ∧
      (analyzeSqlAst (JsVal.arr [JsVal.obj [("type", JsVal.str "create"),
          ("keyword", JsVal.str "table"), ("table", JsVal.str "w"),
          ("create_definitions", JsVal.nul)]])).totalTables = 1) ∧
    extractColumns (JsVal.arr ([] ++ JsVal.num 7 :: [])) =
      extractColumns (JsVal.arr ([] ++ [])) := by
  have h := create_without_definitions
    (JsVal.obj [("type", JsVal.str "create"), ("keyword", JsVal.str "table"),
      ("table", JsVal.str "w"), ("create_definitions", JsVal.nul)])
    (JsVal.str "w") (by decide) (by decide) (by decide) (by decide) (by decide)
    (by decide) (by decide) (fun _ hh => JsVal.noConfusion hh)
  exact ⟨h.1, h.2 [] [] (JsVal.num 7) (by decide)⟩

/-- Claim C8 (amended): a retained column definition with no recognizable
name field under the documented shapes gets columnName `"unknown"`; a
definition with no recognizable type tag gets the *base* type `"unknown"` —
the result still carries a parenthesized length suffix when a length is
located, and is exactly `"unknown"` when no length is located at either
level.  Extraction misses resolve to these sentinels; the embedding is
total, so they never raise or abort processing. -/
theorem unknown_fallbacks :
    (∀ d : JsVal,
        isStrVal (getField d "column") = false →
        isStrVal (getField (getField d "column") "column") = false →
        isStrVal (getField (getField (getField d "column") "column") "column") = false →
        extractColumnName d = "unknown") ∧
    ∀ definition : JsVal,
      isStrVal (getField definition "dataType") = false →
      isStrVal (getField (getField definition "dataType") "dataType") = false →
      (∃ rest, buildDataType definition = "unknown" ++ rest) ∧
        (getField definition "length" = JsVal.nul →
          getField (getField definition "dataType") "length" = JsVal.nul →
          buildDataType definition = "unknown") :=
  ⟨extractColumnName_unknown, buildDataType_unknown_base⟩

/-- Witness for C8: a column-flagged entry with no `column` field gets name
`"unknown"`; a definition with only a `length` gets a dataType beginning
with `"unknown"`; a definition with only a `scale` gets exactly
`"unknown"`. -/
theorem unknown_fallbacks_witness :
    extractColumnName (JsVal.obj [("resource", JsVal.str "column")]) = "unknown" ∧
    (∃ rest, buildDataType (JsVal.obj [("length", JsVal.num 5)]) = "unknown" ++ rest) ∧
    buildDataType (JsVal.obj [("scale", JsVal.num 2)]) = "unknown" :=
  ⟨unknown_fallbacks.1 _ (by decide) (by decide) (by decide),
   (unknown_fallbacks.2 _ (by decide) (by decide)).1,
   (unknown_fallbacks.2 _ (by decide) (by decide)).2 (by decide) (by decide)⟩

/-- Claim C8 counterexample: a retained column definition whose definition
sub-structure is `{length: 5}` (no type tag anywhere) yields the dataType
`"unknown(5)"`, not the bare string `"unknown"` the claim requires. -/
theorem unknown_fallbacks_counterexample :
    extractColumns (JsVal.arr [JsVal.obj [("resource", JsVal.str "column"),
        ("definition", JsVal.obj [("length", JsVal.num 5)])]]) =
      [{ columnName := "unknown", dataType := "unknown(5)" }] ∧
    ("unknown(5)" : String) ≠ "unknown" := by
  decide

/-- Claim C1 (code divergence): analyzing the modelled statement sequence of
`USE shop; CREATE TABLE users(id INT, name VARCHAR(50)); INSERT ...(two
rows); INSERT ...(one row)` yields databaseName `"shop"`, one table `users`
with rowCount 3 and columns `id`/`name` — but `id`'s dataType is
`"INT(3)"`, not the claimed `"INT"`: with a bare-string type tag and no
declared length, the fallback `definition.dataType.length` reads the tag
string's own length property (3). -/
theorem end_to_end_eval :
    analyzeSqlAst c1Ast =
      { databaseName := JsVal.str "shop"
        totalTables := 1
        tables := [{ tableName := JsVal.str "users"
                     columns := [{ columnName := "id", dataType := "INT(3)" },
                                 { columnName := "name", dataType := "VARCHAR(50)" }]
                     rowCount := 3 }] } ∧
    ("INT(3)" : String) ≠ "INT" := by
  decide

/-- Claim C5 (code divergence): the composition rule holds for
`VARCHAR`+length, `DECIMAL`+length+scale, and scale-without-length (silently
lost), but a bare-string `INT` tag with no length yields `"INT(3)"` — the
tag string's own length property is picked up by the nested fallback —
instead of the claimed `"INT"`. -/
theorem type_composition_eval :
    buildDataType (JsVal.obj [("dataType", JsVal.str "VARCHAR"),
        ("length", JsVal.num 50)]) = "VARCHAR(50)" ∧
    buildDataType (JsVal.obj [("dataType", JsVal.str "DECIMAL"),
        ("length", JsVal.num 10), ("scale", JsVal.num 2)]) = "DECIMAL(10,2)" ∧
    buildDataType (JsVal.obj [("dataType", JsVal.obj [("dataType", JsVal.str "DECIMAL")]),
        ("scale", JsVal.num 2)]) = "DECIMAL" ∧
    buildDataType (JsVal.obj [("dataType", JsVal.str "INT")]) = "INT(3)" ∧
    ("INT(3)" : String) ≠ "INT" := by
  decide
